import Mathlib

/-!
Verification of the multi-camera inspection system (`manojdaspy/inspection-system`).

Shallow embedding conventions:
* Python floats are modelled as rationals (`ℚ`); `round(x, 3)` is modelled as
  rounding to the nearest multiple of `1/1000` with ties to even (`round3`).
* Python dictionaries with a fixed key set are modelled as structures; a key read
  with `dict.get(key, default)` that may be absent is modelled as an `Option` field.
* A Python function that may `raise` is modelled as returning `Except String _`.
* Wall-clock timing fields (`*_time_ms` measured with `time.time()`) are not part
  of any verified property and are either omitted or carried as opaque data.
* Thread-pool fan-out with lock-protected shared state is modelled by quantifying
  over every sequential order of the atomic (lock-guarded) operations.
-/

namespace Inspection

/-- Rounding of `x` to the nearest integer with ties to even, over `ℚ`
(the tie rule of Python's `round`). -/
def roundHalfEven (x : ℚ) : ℤ :=
  if x - ⌊x⌋ < 1/2 then ⌊x⌋
  else if 1/2 < x - ⌊x⌋ then ⌊x⌋ + 1
  else if ⌊x⌋ % 2 = 0 then ⌊x⌋ else ⌊x⌋ + 1

/-- Python's `round(x, 3)` over `ℚ`: nearest multiple of `1/1000`, ties to even. -/
def round3 (x : ℚ) : ℚ := (roundHalfEven (x * 1000) : ℚ) / 1000

/-! ## Postprocessor (`src/processing/postprocessor.py`) -/

/-- A raw detection as consumed by the Score stage: only the `"confidence"` key is
read by `_filter_detections` and `_classify_severity`. -/
structure Detection where
  confidence : ℚ
  deriving Repr, DecidableEq

/-- A severity-classified detection: the `det_copy` produced by
`Postprocessor._classify_severity`, which adds the `"severity"` key. -/
structure CDetection where
  confidence : ℚ
  severity : String
  deriving Repr, DecidableEq

/-- `Postprocessor.CONFIDENCE_THRESHOLD`. -/
def CONFIDENCE_THRESHOLD : ℚ := 7/10

/-- `Postprocessor._filter_detections`: keep detections with
`det["confidence"] >= CONFIDENCE_THRESHOLD`. -/
def filter_detections (detections : List Detection) : List Detection :=
  detections.filter (fun det => decide (det.confidence ≥ CONFIDENCE_THRESHOLD))

/-- The severity chosen by the loop in `Postprocessor._classify_severity`:
`SEVERITY_THRESHOLDS` is iterated in insertion order (minor, major, critical),
each band tested as `low <= confidence < high`, with `break` at the first match
and the pre-loop default `severity = "minor"` when no band matches. -/
def severity_of (confidence : ℚ) : String :=
  if 7/10 ≤ confidence ∧ confidence < 8/10 then "minor"
  else if 8/10 ≤ confidence ∧ confidence < 9/10 then "major"
  else if 9/10 ≤ confidence ∧ confidence < 1 then "critical"
  else "minor"

/-- `Postprocessor._classify_severity`: copy each detection and attach its severity. -/
def classify_severity (detections : List Detection) : List CDetection :=
  detections.map (fun det => ⟨det.confidence, severity_of det.confidence⟩)

/-- The per-severity penalty weight: `severity_weights.get(det["severity"], 0.2)`
with `severity_weights = {"minor": 0.1, "major": 0.3, "critical": 0.6}`. -/
def severity_weight (severity : String) : ℚ :=
  if severity = "minor" then 1/10
  else if severity = "major" then 3/10
  else if severity = "critical" then 6/10
  else 1/5

/-- `Postprocessor._calculate_quality_score`: `1.0` for an empty list, otherwise
`round(max(0.0, 1.0 - total_penalty), 3)`. -/
def calculate_quality_score (detections : List CDetection) : ℚ :=
  if detections = [] then 1
  else
    round3 (max 0 (1 - (detections.map (fun det => severity_weight det.severity)).sum))

/-- The inference-engine output fields read by `Postprocessor.process`:
`"detections"` and `"timestamp"`. -/
structure InferenceResult where
  detections : List Detection
  timestamp : String
  deriving Repr, DecidableEq

/-- The dictionary returned by `Postprocessor.process` (the wall-clock
`postprocessing_time_ms` field is omitted). -/
structure ProcResult where
  camera_id : String
  timestamp : String
  detections : List CDetection
  quality_score : ℚ
  total_detections : ℕ
  filtered_detections : ℕ
  deriving Repr, DecidableEq

/-- `Postprocessor.process`: filter by confidence, classify severity, score. -/
def Postprocessor.process (inference_result : InferenceResult) (camera_id : String) :
    ProcResult :=
  let detections := inference_result.detections
  let filtered := filter_detections detections
  let classified := classify_severity filtered
  { camera_id := camera_id
    timestamp := inference_result.timestamp
    detections := classified
    quality_score := calculate_quality_score classified
    total_detections := detections.length
    filtered_detections := classified.length }

/-! ## Result aggregator (`src/aggregation/aggregator.py`) -/

/-- The severity histogram built by `ResultAggregator._count_severities`
(`{"minor": 0, "major": 0, "critical": 0}` with counted increments). -/
structure SevCounts where
  minor : ℕ
  major : ℕ
  critical : ℕ
  deriving Repr, DecidableEq

/-- `ResultAggregator._count_severities`: count detections per severity key;
`det.get("severity", "minor")` always exists here, and a severity outside the
three keys is not counted. -/
def count_severities (detections : List CDetection) : SevCounts :=
  { minor := detections.countP (fun det => decide (det.severity = "minor"))
    major := detections.countP (fun det => decide (det.severity = "major"))
    critical := detections.countP (fun det => decide (det.severity = "critical")) }

/-- The fields of a per-device result dictionary that `ResultAggregator.aggregate`
reads: `result.get("quality_score", 0.0)` and `result.get("detections", [])`.
A `none` quality score models a dictionary lacking the `"quality_score"` key. -/
structure CamResult where
  quality_score : Option ℚ
  detections : List CDetection
  deriving Repr, DecidableEq

/-- One entry of `camera_summaries`. -/
structure CamSummary where
  score : ℚ
  defects : ℕ
  severities : SevCounts
  deriving Repr, DecidableEq

/-- The dictionary returned by `ResultAggregator.aggregate`. -/
structure AggResult where
  aggregated_score : ℚ
  decision : String
  camera_summaries : List (String × CamSummary)
  total_defects : ℕ
  severity_counts : SevCounts
  cameras_used : ℕ
  deriving Repr, DecidableEq

/-- `ResultAggregator.PASS_THRESHOLD`. -/
def PASS_THRESHOLD : ℚ := 3/4

/-- `ResultAggregator._calculate_aggregated_score`: `0.0` for an empty list,
otherwise Python's `min(scores)`. -/
def calculate_aggregated_score (scores : List ℚ) : ℚ :=
  match scores with
  | [] => 0
  | s :: rest => rest.foldl min s

/-- `ResultAggregator.aggregate`. The `raise ValueError` on an empty mapping is
modelled as `Except.error`; the insertion-ordered dictionary is a key-value list. -/
def ResultAggregator.aggregate (camera_results : List (String × CamResult)) :
    Except String AggResult :=
  if camera_results = [] then .error "No camera results to aggregate"
  else
    let scores := camera_results.map (fun p => p.2.quality_score.getD 0)
    let all_detections := (camera_results.map (fun p => p.2.detections)).flatten
    let camera_summaries := camera_results.map (fun p =>
      (p.1, ({ score := p.2.quality_score.getD 0
               defects := p.2.detections.length
               severities := count_severities p.2.detections } : CamSummary)))
    let aggregated_score := calculate_aggregated_score scores
    let decision := if aggregated_score ≥ PASS_THRESHOLD then "PASS" else "FAIL"
    .ok { aggregated_score := round3 aggregated_score
          decision := decision
          camera_summaries := camera_summaries
          total_defects := all_detections.length
          severity_counts := count_severities all_detections
          cameras_used := camera_results.length }

/-! ## Controller (`src/core/controller.py`) -/

/-- The observable outcome of `InspectionController._capture_with_retry`:
the returned value, the number of `camera.capture()` calls made, and the number
of `time.sleep(RETRY_DELAY)` pauses taken between consecutive attempts. -/
structure RetryTrace (α : Type) where
  result : Option α
  attempts : ℕ
  sleeps : ℕ
  deriving Repr, DecidableEq

/-- The fixed inter-attempt delay of `_capture_with_retry`, in seconds
(`time.sleep(0.05)`, i.e. 50 ms). -/
def RETRY_DELAY : ℚ := 1/20

/-- The loop body of `_capture_with_retry`. `capture i` is the outcome of the
device's `capture()` call on attempt index `i` (`none` models a raised
exception); `remaining` is how many loop iterations `range(max_retries)` still
has, so the Python guard `attempt < max_retries - 1` is `remaining > 1`. -/
def retryGo {α : Type} (capture : ℕ → Option α) : ℕ → ℕ → ℕ → RetryTrace α
  | 0, attempt, sleeps => ⟨none, attempt, sleeps⟩
  | 1, attempt, sleeps =>
    match capture attempt with
    | some frame => ⟨some frame, attempt + 1, sleeps⟩
    | none => ⟨none, attempt + 1, sleeps⟩
  | remaining + 2, attempt, sleeps =>
    match capture attempt with
    | some frame => ⟨some frame, attempt + 1, sleeps⟩
    | none => retryGo capture (remaining + 1) (attempt + 1) (sleeps + 1)

/-- `InspectionController._capture_with_retry` (default `max_retries = 3`):
run the retry loop from attempt index 0. -/
def capture_with_retry {α : Type} (capture : ℕ → Option α) (max_retries : ℕ := 3) :
    RetryTrace α :=
  retryGo capture max_retries 0 0

/-- `InspectionController._process_frames`: run `process_single` for every
captured frame; a device whose run raises (`Except.error`) is skipped, a device
whose run succeeds keeps its entry. The thread pool's nondeterministic
completion order only affects insertion order, which the key-value list keeps
in input order without loss of generality. -/
def process_frames {F R : Type} (frames : List (String × F))
    (process_single : String → F → Except String R) : List (String × R) :=
  frames.filterMap (fun p =>
    match process_single p.1 p.2 with
    | .ok r => some (p.1, r)
    | .error _ => none)

/-- The report fields produced by `InspectionReporter.generate_report` that the
metrics sink and the caller read (`timestamp`, `cameras` detail and the
wall-clock `total_time_ms` value are opaque to every verified property;
`total_time_ms` is kept as data so `record_cycle` can store it). -/
structure Report where
  cycle_id : ℕ
  aggregated_score : ℚ
  decision : String
  defects_found : ℕ
  severity_breakdown : SevCounts
  total_time_ms : ℚ
  cameras_used : ℕ
  deriving Repr, DecidableEq

/-- Which stages of `InspectionController.execute_cycle` ran and what it
recorded in the metrics sink. -/
structure CycleEffects where
  pipeline_ran : Bool
  aggregator_ran : Bool
  failures_recorded : ℕ
  cycles_recorded : ℕ
  deriving Repr, DecidableEq

/-- Convert a postprocessor result to the dictionary view the aggregator reads
(both keys are always present in a `Postprocessor.process` output). -/
def ProcResult.toCamResult (r : ProcResult) : CamResult :=
  { quality_score := some r.quality_score, detections := r.detections }

/-- `InspectionController.execute_cycle`, from the capture-stage output onward:
if no frames were captured, `raise Exception(...)` is hit before the pipeline
stage; the `except` block records exactly one failure (`metrics.record_failure`)
and re-raises. Otherwise the pipeline stage, the aggregator, the reporter and
`metrics.record_cycle` run in order. `elapsed` stands for the measured
wall-clock cycle time. -/
def execute_cycle {F : Type} (cycle_id : ℕ) (frames : List (String × F))
    (process_single : String → F → Except String ProcResult) (elapsed : ℚ) :
    Except String Report × CycleEffects :=
  if frames.isEmpty then
    (.error "No frames captured from any camera",
     { pipeline_ran := false, aggregator_ran := false
       failures_recorded := 1, cycles_recorded := 0 })
  else
    let camera_results := process_frames frames process_single
    match ResultAggregator.aggregate
        (camera_results.map (fun p => (p.1, p.2.toCamResult))) with
    | .error e =>
      (.error e,
       { pipeline_ran := true, aggregator_ran := true
         failures_recorded := 1, cycles_recorded := 0 })
    | .ok agg =>
      (.ok { cycle_id := cycle_id
             aggregated_score := agg.aggregated_score
             decision := agg.decision
             defects_found := agg.total_defects
             severity_breakdown := agg.severity_counts
             total_time_ms := elapsed
             cameras_used := agg.cameras_used },
       { pipeline_ran := true, aggregator_ran := true
         failures_recorded := 0, cycles_recorded := 1 })

/-! ## Metrics sink (`src/utils/metrics.py`) -/

/-- The mutable state of `MetricsCollector`; `camera_failures` is the
`defaultdict(int)` as a key-value list. -/
structure MetricsState where
  cycle_times : List ℚ
  decisions : List String
  defect_counts : List ℕ
  quality_scores : List ℚ
  camera_failures : List (String × ℕ)
  total_failures : ℕ
  deriving Repr, DecidableEq

/-- The state of a fresh `MetricsCollector`. -/
def initMetrics : MetricsState :=
  { cycle_times := [], decisions := [], defect_counts := []
    quality_scores := [], camera_failures := [], total_failures := 0 }

/-- `MetricsCollector.record_cycle`: append the report's fields to the lists. -/
def record_cycle (s : MetricsState) (report : Report) : MetricsState :=
  { s with cycle_times := s.cycle_times ++ [report.total_time_ms]
           decisions := s.decisions ++ [report.decision]
           defect_counts := s.defect_counts ++ [report.defects_found]
           quality_scores := s.quality_scores ++ [report.aggregated_score] }

/-- Bump one key of the `defaultdict(int)`. -/
def bumpKey : List (String × ℕ) → String → List (String × ℕ)
  | [], k => [(k, 1)]
  | (k', n) :: rest, k =>
    if k' = k then (k', n + 1) :: rest else (k', n) :: bumpKey rest k

/-- `MetricsCollector.record_camera_failure`. -/
def record_camera_failure (s : MetricsState) (camera_id : String) : MetricsState :=
  { s with camera_failures := bumpKey s.camera_failures camera_id }

/-- `MetricsCollector.record_failure`. -/
def record_failure (s : MetricsState) : MetricsState :=
  { s with total_failures := s.total_failures + 1 }

/-- One lock-guarded write to the `MetricsCollector`. Every mutating method
takes `self._lock` for the whole of its body, so under concurrency each call is
one atomic state transition. -/
inductive MetricsOp where
  | cycle (report : Report)
  | cameraFailure (camera_id : String)
  | failure
  deriving Repr, DecidableEq

/-- Apply one atomic metrics write. -/
def applyOp (s : MetricsState) : MetricsOp → MetricsState
  | .cycle report => record_cycle s report
  | .cameraFailure camera_id => record_camera_failure s camera_id
  | .failure => record_failure s

/-- Execute a sequence of atomic metrics writes in order. A concurrent execution
of lock-guarded calls is equivalent to some such sequential order, and the
claims quantify over all orders. -/
def runOps (s : MetricsState) (ops : List MetricsOp) : MetricsState :=
  ops.foldl applyOp s

/-- Whether an atomic write is a `record_failure` call. -/
def MetricsOp.isFailure : MetricsOp → Bool
  | .failure => true
  | _ => false

/-- The dictionary returned by `MetricsCollector.get_summary` (wall-clock
statistics included, since they are plain folds of the recorded data). -/
structure Summary where
  total_cycles : ℕ
  successful_cycles : ℕ
  failed_cycles : ℕ
  pass_count : ℕ
  fail_count : ℕ
  pass_rate : ℚ
  avg_cycle_time : ℚ
  min_cycle_time : ℚ
  max_cycle_time : ℚ
  avg_quality_score : ℚ
  total_defects : ℕ
  avg_defects_per_cycle : ℚ
  camera_failures : List (String × ℕ)
  deriving Repr, DecidableEq

/-- `MetricsCollector._empty_summary`. -/
def empty_summary : Summary :=
  { total_cycles := 0, successful_cycles := 0, failed_cycles := 0
    pass_count := 0, fail_count := 0, pass_rate := 0
    avg_cycle_time := 0, min_cycle_time := 0, max_cycle_time := 0
    avg_quality_score := 0, total_defects := 0, avg_defects_per_cycle := 0
    camera_failures := [] }

/-- Python's `min(l)` over a non-empty list, `0` when empty (matching the
`min(l) if l else 0` pattern of `get_summary`). -/
def listMin (l : List ℚ) : ℚ :=
  match l with
  | [] => 0
  | x :: rest => rest.foldl min x

/-- Python's `max(l)` over a non-empty list, `0` when empty. -/
def listMax (l : List ℚ) : ℚ :=
  match l with
  | [] => 0
  | x :: rest => rest.foldl max x

/-- `MetricsCollector.get_summary`: the empty branch returns `_empty_summary`;
otherwise every statistic is computed from the recorded lists, with
`successful = total_cycles` and `failed_cycles = self.total_failures`. -/
def get_summary (s : MetricsState) : Summary :=
  let total_cycles := s.decisions.length
  let successful := total_cycles
  if total_cycles = 0 then empty_summary
  else
    let passes := s.decisions.count "PASS"
    let fails := s.decisions.count "FAIL"
    { total_cycles := total_cycles
      successful_cycles := successful
      failed_cycles := s.total_failures
      pass_count := passes
      fail_count := fails
      pass_rate := if 0 < total_cycles then (passes : ℚ) / total_cycles * 100 else 0
      avg_cycle_time := if s.cycle_times ≠ [] then
          s.cycle_times.sum / s.cycle_times.length else 0
      min_cycle_time := if s.cycle_times ≠ [] then listMin s.cycle_times else 0
      max_cycle_time := if s.cycle_times ≠ [] then listMax s.cycle_times else 0
      avg_quality_score := if s.quality_scores ≠ [] then
          s.quality_scores.sum / s.quality_scores.length else 0
      total_defects := s.defect_counts.sum
      avg_defects_per_cycle := if s.defect_counts ≠ [] then
          (s.defect_counts.sum : ℚ) / s.defect_counts.length else 0
      camera_failures := s.camera_failures }

/-! ## Helper lemmas -/

theorem roundHalfEven_intCast (z : ℤ) : roundHalfEven (z : ℚ) = z := by
  unfold roundHalfEven
  rw [Int.floor_intCast]
  norm_num

theorem round3_of_mul_intCast (x : ℚ) (z : ℤ) (h : x * 1000 = (z : ℚ)) :
    round3 x = x := by
  unfold round3
  rw [h, roundHalfEven_intCast, ← h]
  exact mul_div_cancel_right₀ x (by norm_num)

theorem severity_of_mem (c : ℚ) :
    severity_of c = "minor" ∨ severity_of c = "major" ∨ severity_of c = "critical" := by
  unfold severity_of
  split_ifs <;> simp

theorem severity_weight_minor : severity_weight "minor" = 1/10 := rfl

theorem severity_weight_major : severity_weight "major" = 3/10 := rfl

theorem severity_weight_critical : severity_weight "critical" = 6/10 := rfl

theorem weight_severity_of (c : ℚ) :
    ∃ k : ℕ, severity_weight (severity_of c) = (k : ℚ) / 10 := by
  rcases severity_of_mem c with h | h | h <;> rw [h]
  · exact ⟨1, by rw [severity_weight_minor]; norm_num⟩
  · exact ⟨3, by rw [severity_weight_major]; norm_num⟩
  · exact ⟨6, by rw [severity_weight_critical]; norm_num⟩

theorem sum_weights_classified (l : List Detection) :
    ∃ m : ℕ,
      ((classify_severity l).map (fun d => severity_weight d.severity)).sum
        = (m : ℚ) / 10 := by
  induction l with
  | nil => exact ⟨0, by simp [classify_severity]⟩
  | cons a t ih =>
    obtain ⟨m, hm⟩ := ih
    obtain ⟨k, hk⟩ := weight_severity_of a.confidence
    refine ⟨k + m, ?_⟩
    simp only [classify_severity, List.map_cons, List.sum_cons] at hm ⊢
    rw [hk, hm]
    push_cast
    ring

theorem max_penalty_int (m : ℕ) :
    ∃ z : ℤ, max 0 (1 - (m : ℚ) / 10) * 1000 = (z : ℚ) := by
  rcases le_total ((m : ℚ) / 10) 1 with h | h
  · refine ⟨1000 - 100 * m, ?_⟩
    rw [max_eq_right (by linarith)]
    push_cast
    ring
  · refine ⟨0, ?_⟩
    rw [max_eq_left (by linarith)]
    norm_num

/-! ## Claim theorems -/

/-- C2: for every list of surviving (severity-classified) detections, the Score
stage's quality score equals `max 0 (1 - Σ severity_weight)` with weights
minor = 0.1, major = 0.3, critical = 0.6; it lies in `[0, 1]`; and an empty
surviving set yields exactly `1.0`. -/
theorem C2_quality_score (detections : List Detection) :
    calculate_quality_score (classify_severity (filter_detections detections))
        = max 0 (1 - ((classify_severity (filter_detections detections)).map
            (fun d => severity_weight d.severity)).sum)
    ∧ 0 ≤ calculate_quality_score (classify_severity (filter_detections detections))
    ∧ calculate_quality_score (classify_severity (filter_detections detections)) ≤ 1
    ∧ severity_weight "minor" = 1/10
    ∧ severity_weight "major" = 3/10
    ∧ severity_weight "critical" = 6/10
    ∧ calculate_quality_score [] = 1 := by
  obtain ⟨m, hm⟩ := sum_weights_classified (filter_detections detections)
  have hmain : calculate_quality_score (classify_severity (filter_detections detections))
      = max 0 (1 - ((classify_severity (filter_detections detections)).map
          (fun d => severity_weight d.severity)).sum) := by
    by_cases he : classify_severity (filter_detections detections) = []
    · rw [he]
      norm_num [calculate_quality_score]
    · rw [calculate_quality_score, if_neg he, hm]
      obtain ⟨z, hz⟩ := max_penalty_int m
      exact round3_of_mul_intCast _ z hz
  have hnn : (0 : ℚ) ≤ (m : ℚ) / 10 := by positivity
  refine ⟨hmain, ?_, ?_, severity_weight_minor, severity_weight_major,
    severity_weight_critical, by norm_num [calculate_quality_score]⟩
  · rw [hmain]
    exact le_max_left _ _
  · rw [hmain, hm]
    exact max_le (by norm_num) (by linarith)

theorem process_detections_eq (ir : InferenceResult) (cid : String) :
    (Postprocessor.process ir cid).detections
      = classify_severity (filter_detections ir.detections) := rfl

theorem severity_of_spec (c : ℚ) (h7 : 7/10 ≤ c) (h1 : c ≤ 1) :
    (severity_of c = "minor" ↔ (c < 8/10 ∨ c = 1))
    ∧ (severity_of c = "major" ↔ (8/10 ≤ c ∧ c < 9/10))
    ∧ (severity_of c = "critical" ↔ (9/10 ≤ c ∧ c < 1)) := by
  unfold severity_of
  split_ifs with hA hB hC
  · exact ⟨iff_of_true rfl (Or.inl hA.2),
      iff_of_false (by decide) (fun h => absurd h.1 (not_le.mpr hA.2)),
      iff_of_false (by decide) (fun h => absurd h.1 (by linarith [hA.2]))⟩
  · refine ⟨iff_of_false (by decide) ?_, iff_of_true rfl hB,
      iff_of_false (by decide) (fun h => absurd h.1 (not_le.mpr hB.2))⟩
    rintro (h | rfl)
    · exact absurd h (not_lt.mpr hB.1)
    · exact absurd hB.2 (by norm_num)
  · refine ⟨iff_of_false (by decide) ?_, iff_of_false (by decide) ?_,
      iff_of_true rfl hC⟩
    · rintro (h | rfl)
      · exact absurd h (not_lt.mpr (by linarith [hC.1]))
      · exact absurd hC.2 (by norm_num)
    · exact fun h => absurd h.2 (not_lt.mpr hC.1)
  · push_neg at hA hB hC
    have h8 : 8/10 ≤ c := hA h7
    have h9 : 9/10 ≤ c := hB h8
    have hc1 : c = 1 := le_antisymm h1 (hC h9)
    subst hc1
    refine ⟨iff_of_true rfl (Or.inr rfl), iff_of_false (by decide) ?_,
      iff_of_false (by decide) ?_⟩
    · exact fun h => absurd h.2 (by norm_num)
    · exact fun h => absurd h.2 (by norm_num)

/-- C3 (amended): every surviving detection of `Postprocessor.process` has
confidence ≥ 0.7 and exactly one severity, assigned totally by confidence:
`[0.7, 0.8) → minor`, `[0.8, 0.9) → major`, `[0.9, 1.0) → critical`, and
confidence exactly `1.0` falls outside every half-open band and gets the
default severity `minor` (not `critical` as the claim states). -/
theorem C3_severity_classification (ir : InferenceResult) (cid : String)
    (d : CDetection) (hd : d ∈ (Postprocessor.process ir cid).detections) :
    CONFIDENCE_THRESHOLD ≤ d.confidence
    ∧ (d.severity = "minor" ∨ d.severity = "major" ∨ d.severity = "critical")
    ∧ (d.confidence ≤ 1 →
        ((d.severity = "minor" ↔ (d.confidence < 8/10 ∨ d.confidence = 1))
         ∧ (d.severity = "major" ↔ (8/10 ≤ d.confidence ∧ d.confidence < 9/10))
         ∧ (d.severity = "critical" ↔ (9/10 ≤ d.confidence ∧ d.confidence < 1)))) := by
  rw [process_detections_eq] at hd
  simp only [classify_severity, List.mem_map] at hd
  obtain ⟨d0, hd0, rfl⟩ := hd
  have hconf : CONFIDENCE_THRESHOLD ≤ d0.confidence := by
    have h := (List.mem_filter.mp hd0).2
    simpa using h
  exact ⟨hconf, severity_of_mem d0.confidence,
    fun h1 => severity_of_spec d0.confidence hconf h1⟩

/-- Witness for C3: a detection with confidence 0.95 survives and is classified
`critical`, with the band characterization holding at it. -/
theorem C3_severity_classification_witness :
    CONFIDENCE_THRESHOLD ≤ (⟨19/20, "critical"⟩ : CDetection).confidence
    ∧ ((⟨19/20, "critical"⟩ : CDetection).severity = "minor"
        ∨ (⟨19/20, "critical"⟩ : CDetection).severity = "major"
        ∨ (⟨19/20, "critical"⟩ : CDetection).severity = "critical")
    ∧ ((⟨19/20, "critical"⟩ : CDetection).confidence ≤ 1 →
        (((⟨19/20, "critical"⟩ : CDetection).severity = "minor"
            ↔ ((⟨19/20, "critical"⟩ : CDetection).confidence < 8/10
               ∨ (⟨19/20, "critical"⟩ : CDetection).confidence = 1))
         ∧ ((⟨19/20, "critical"⟩ : CDetection).severity = "major"
            ↔ (8/10 ≤ (⟨19/20, "critical"⟩ : CDetection).confidence
               ∧ (⟨19/20, "critical"⟩ : CDetection).confidence < 9/10))
         ∧ ((⟨19/20, "critical"⟩ : CDetection).severity = "critical"
            ↔ (9/10 ≤ (⟨19/20, "critical"⟩ : CDetection).confidence
               ∧ (⟨19/20, "critical"⟩ : CDetection).confidence < 1)))) :=
  C3_severity_classification ⟨[⟨19/20⟩], "t"⟩ "CAM_01" ⟨19/20, "critical"⟩
    (by norm_num [Postprocessor.process, classify_severity, filter_detections,
      severity_of, CONFIDENCE_THRESHOLD])

/-- Counterexample to C3 as stated: a detection with confidence exactly 1.0
survives but is classified `minor`, not `critical`. -/
theorem C3_confidence_one_counterexample :
    (Postprocessor.process ⟨[⟨1⟩], "t"⟩ "CAM_01").detections = [⟨1, "minor"⟩]
    ∧ ("minor" : String) ≠ "critical" := by
  constructor
  · norm_num [Postprocessor.process, classify_severity, filter_detections,
      severity_of, CONFIDENCE_THRESHOLD]
  · decide

theorem foldl_min_mem (s : ℚ) (t : List ℚ) : t.foldl min s ∈ s :: t := by
  induction t generalizing s with
  | nil => simp
  | cons a tt ih =>
    rw [List.foldl_cons]
    rcases List.mem_cons.mp (ih (min s a)) with heq | hmem
    · rcases min_choice s a with h1 | h1
      · rw [heq, h1]
        exact List.mem_cons_self _ _
      · rw [heq, h1]
        exact List.mem_cons_of_mem _ (List.mem_cons_self _ _)
    · exact List.mem_cons_of_mem _ (List.mem_cons_of_mem _ hmem)

theorem foldl_min_le (s : ℚ) (t : List ℚ) : ∀ q ∈ s :: t, t.foldl min s ≤ q := by
  induction t generalizing s with
  | nil =>
    intro q hq
    rw [List.mem_singleton] at hq
    subst hq
    simp
  | cons a tt ih =>
    intro q hq
    rw [List.foldl_cons]
    have hmin : tt.foldl min (min s a) ≤ min s a :=
      ih (min s a) (min s a) (List.mem_cons_self _ _)
    rcases List.mem_cons.mp hq with h1 | h1
    · rw [h1]
      exact le_trans hmin (min_le_left _ _)
    · rcases List.mem_cons.mp h1 with h2 | h2
      · rw [h2]
        exact le_trans hmin (min_le_right _ _)
      · exact ih (min s a) q (List.mem_cons_of_mem _ h2)

theorem calc_agg_mem (scores : List ℚ) (h : scores ≠ []) :
    calculate_aggregated_score scores ∈ scores := by
  cases scores with
  | nil => exact absurd rfl h
  | cons a t => exact foldl_min_mem a t

theorem calc_agg_le (scores : List ℚ) (q : ℚ) (hq : q ∈ scores) :
    calculate_aggregated_score scores ≤ q := by
  cases scores with
  | nil => simp at hq
  | cons a t => exact foldl_min_le a t q hq

theorem aggregate_spec (camera_results : List (String × CamResult))
    (h : camera_results ≠ []) :
    ResultAggregator.aggregate camera_results = .ok
      { aggregated_score := round3 (calculate_aggregated_score
            (camera_results.map (fun p => p.2.quality_score.getD 0)))
        decision := if calculate_aggregated_score
              (camera_results.map (fun p => p.2.quality_score.getD 0))
              ≥ PASS_THRESHOLD then "PASS" else "FAIL"
        camera_summaries := camera_results.map (fun p =>
          (p.1, ({ score := p.2.quality_score.getD 0
                   defects := p.2.detections.length
                   severities := count_severities p.2.detections } : CamSummary)))
        total_defects := ((camera_results.map (fun p => p.2.detections)).flatten).length
        severity_counts := count_severities
            ((camera_results.map (fun p => p.2.detections)).flatten)
        cameras_used := camera_results.length } := by
  rw [ResultAggregator.aggregate, if_neg h]

/-- C1 (amended): for every non-empty mapping given to `aggregate`, the
unrounded minimum of the per-device quality scores drives the decision — PASS
iff that minimum is ≥ 0.75 (so exactly 0.75 is PASS and 0.74999 is FAIL) —
while the RETURNED `aggregated_score` is that minimum rounded to 3 decimal
places, which can differ from the minimum itself (e.g. 0.74999 is returned as
0.75). The first two conjuncts state that `calculate_aggregated_score` is the
minimum: a member of the score list that bounds every member from below. -/
theorem C1_aggregate_min_decision (camera_results : List (String × CamResult))
    (h : camera_results ≠ []) :
    calculate_aggregated_score (camera_results.map (fun p => p.2.quality_score.getD 0))
        ∈ camera_results.map (fun p => p.2.quality_score.getD 0)
    ∧ (∀ q ∈ camera_results.map (fun p => p.2.quality_score.getD 0),
        calculate_aggregated_score
          (camera_results.map (fun p => p.2.quality_score.getD 0)) ≤ q)
    ∧ (ResultAggregator.aggregate camera_results).map (fun a => a.aggregated_score)
        = .ok (round3 (calculate_aggregated_score
            (camera_results.map (fun p => p.2.quality_score.getD 0))))
    ∧ (ResultAggregator.aggregate camera_results).map (fun a => a.decision)
        = .ok (if PASS_THRESHOLD ≤ calculate_aggregated_score
              (camera_results.map (fun p => p.2.quality_score.getD 0))
            then "PASS" else "FAIL") := by
  have hne : camera_results.map (fun p => p.2.quality_score.getD 0) ≠ [] := by
    intro hmap
    exact h (List.map_eq_nil_iff.mp hmap)
  refine ⟨calc_agg_mem _ hne, fun q hq => calc_agg_le _ q hq, ?_, ?_⟩
  · rw [aggregate_spec camera_results h]
    rfl
  · rw [aggregate_spec camera_results h]
    rfl

/-- Witness for C1 at the one-camera mapping `{"CAM_01": {"quality_score": 0.8}}`. -/
theorem C1_aggregate_min_decision_witness :
    calculate_aggregated_score
        (([("CAM_01", (⟨some (4/5), []⟩ : CamResult))]).map
          (fun p => p.2.quality_score.getD 0))
        ∈ ([("CAM_01", (⟨some (4/5), []⟩ : CamResult))]).map
            (fun p => p.2.quality_score.getD 0)
    ∧ (∀ q ∈ ([("CAM_01", (⟨some (4/5), []⟩ : CamResult))]).map
          (fun p => p.2.quality_score.getD 0),
        calculate_aggregated_score
          (([("CAM_01", (⟨some (4/5), []⟩ : CamResult))]).map
            (fun p => p.2.quality_score.getD 0)) ≤ q)
    ∧ (ResultAggregator.aggregate [("CAM_01", (⟨some (4/5), []⟩ : CamResult))]).map
          (fun a => a.aggregated_score)
        = .ok (round3 (calculate_aggregated_score
            (([("CAM_01", (⟨some (4/5), []⟩ : CamResult))]).map
              (fun p => p.2.quality_score.getD 0))))
    ∧ (ResultAggregator.aggregate [("CAM_01", (⟨some (4/5), []⟩ : CamResult))]).map
          (fun a => a.decision)
        = .ok (if PASS_THRESHOLD ≤ calculate_aggregated_score
              (([("CAM_01", (⟨some (4/5), []⟩ : CamResult))]).map
                (fun p => p.2.quality_score.getD 0))
            then "PASS" else "FAIL") :=
  C1_aggregate_min_decision [("CAM_01", ⟨some (4/5), []⟩)] (List.cons_ne_nil _ _)

/-- Counterexample to C1 as stated: for the mapping
`{"CAM_01": {"quality_score": 0.74999}}` the returned `aggregated_score` is
0.75 — not the minimum 0.74999 of the contributing quality scores — while the
decision is still FAIL (computed from the unrounded minimum). -/
theorem C1_rounding_counterexample :
    (ResultAggregator.aggregate [("CAM_01", (⟨some (74999/100000), []⟩ : CamResult))]).map
        (fun a => a.aggregated_score) = .ok (3/4)
    ∧ (ResultAggregator.aggregate [("CAM_01", (⟨some (74999/100000), []⟩ : CamResult))]).map
        (fun a => a.decision) = .ok "FAIL"
    ∧ (3/4 : ℚ) ≠ 74999/100000 := by
  rw [aggregate_spec _ (List.cons_ne_nil _ _)]
  refine ⟨?_, ?_, by norm_num⟩
  · show Except.ok (round3 (calculate_aggregated_score [Option.getD (some (74999/100000)) 0])) = _
    norm_num [calculate_aggregated_score, round3, roundHalfEven]
  · show Except.ok (if calculate_aggregated_score [Option.getD (some (74999/100000)) 0]
        ≥ PASS_THRESHOLD then "PASS" else "FAIL") = _
    norm_num [calculate_aggregated_score, PASS_THRESHOLD]

/-- C6: `aggregate` fails with the explicit `ValueError` exactly when its input
mapping is empty, and returns a result without raising for every non-empty
mapping. -/
theorem C6_aggregate_error_iff_empty (camera_results : List (String × CamResult)) :
    ResultAggregator.aggregate [] = .error "No camera results to aggregate"
    ∧ ((∃ e, ResultAggregator.aggregate camera_results = .error e)
        ↔ camera_results = [])
    ∧ ((∃ agg, ResultAggregator.aggregate camera_results = .ok agg)
        ↔ camera_results ≠ []) := by
  refine ⟨rfl, ?_, ?_⟩
  · by_cases h : camera_results = []
    · subst h
      simp [ResultAggregator.aggregate]
    · rw [aggregate_spec _ h]
      simp [h]
  · by_cases h : camera_results = []
    · subst h
      simp [ResultAggregator.aggregate]
    · rw [aggregate_spec _ h]
      simp [h]

/-- C9: a per-device entry lacking the `"quality_score"` key is silently scored
0.0 via `result.get("quality_score", 0.0)`: its summary score is 0.0, the
overall score is 0.0 (the minimum, the other scores being non-negative), the
decision is FAIL, and no error is raised. -/
theorem C9_missing_quality_score (camera_results : List (String × CamResult))
    (camera_id : String) (cr : CamResult)
    (hmem : (camera_id, cr) ∈ camera_results)
    (hnone : cr.quality_score = none)
    (hnn : ∀ p ∈ camera_results, 0 ≤ p.2.quality_score.getD 0) :
    ∃ agg : AggResult, ResultAggregator.aggregate camera_results = .ok agg
      ∧ (camera_id, ({ score := 0, defects := cr.detections.length
                       severities := count_severities cr.detections } : CamSummary))
          ∈ agg.camera_summaries
      ∧ agg.aggregated_score = 0
      ∧ agg.decision = "FAIL" := by
  have h : camera_results ≠ [] := List.ne_nil_of_mem hmem
  have h0mem : (0 : ℚ) ∈ camera_results.map (fun p => p.2.quality_score.getD 0) := by
    refine List.mem_map.mpr ⟨(camera_id, cr), hmem, ?_⟩
    rw [hnone]
    rfl
  have hm0 : calculate_aggregated_score
      (camera_results.map (fun p => p.2.quality_score.getD 0)) = 0 := by
    apply le_antisymm (calc_agg_le _ 0 h0mem)
    have hmem' := calc_agg_mem (camera_results.map (fun p => p.2.quality_score.getD 0))
      (by intro hmap; exact h (List.map_eq_nil_iff.mp hmap))
    obtain ⟨p, hp, hpe⟩ := List.mem_map.mp hmem'
    rw [← hpe]
    exact hnn p hp
  have hspec := aggregate_spec camera_results h
  rw [hm0, round3_of_mul_intCast 0 0 (by norm_num),
    if_neg (by norm_num [PASS_THRESHOLD] : ¬ ((0:ℚ) ≥ PASS_THRESHOLD))] at hspec
  refine ⟨_, hspec, ?_, rfl, rfl⟩
  refine List.mem_map.mpr ⟨(camera_id, cr), hmem, ?_⟩
  rw [hnone]
  rfl

/-- Witness for C9: in `{"CAM_01": {}, "CAM_02": {"quality_score": 0.9}}`,
the malformed `CAM_01` entry is scored 0.0, driving the overall score to 0.0
and the decision to FAIL. -/
theorem C9_missing_quality_score_witness :
    ∃ agg : AggResult,
      ResultAggregator.aggregate
          [("CAM_01", (⟨none, []⟩ : CamResult)),
           ("CAM_02", (⟨some (9/10), []⟩ : CamResult))] = .ok agg
      ∧ ("CAM_01", ({ score := 0, defects := (⟨none, []⟩ : CamResult).detections.length
                      severities := count_severities (⟨none, []⟩ : CamResult).detections }
            : CamSummary)) ∈ agg.camera_summaries
      ∧ agg.aggregated_score = 0
      ∧ agg.decision = "FAIL" :=
  C9_missing_quality_score
    [("CAM_01", ⟨none, []⟩), ("CAM_02", ⟨some (9/10), []⟩)]
    "CAM_01" ⟨none, []⟩ (List.mem_cons_self _ _) rfl
    (by
      rintro p hp
      rcases List.mem_cons.mp hp with h1 | h1
      · rw [h1]
        norm_num
      · rcases List.mem_cons.mp h1 with h2 | h2
        · rw [h2]
          norm_num
        · simp at h2)

theorem retryGo_succ {α : Type} (capture : ℕ → Option α) (frame : α) :
    ∀ (n : ℕ), ∀ (rem a s : ℕ), n < rem →
      (∀ i, i < n → capture (a + i) = none) →
      capture (a + n) = some frame →
      retryGo capture rem a s = ⟨some frame, a + n + 1, s + n⟩ := by
  intro n
  induction n with
  | zero =>
    intro rem a s hlt hfail hsucc
    have ha : capture a = some frame := by simpa using hsucc
    rcases Nat.lt_or_ge rem 2 with h2 | h2
    · obtain rfl : rem = 1 := by omega
      rw [retryGo, ha]
      simp
    · obtain ⟨r, rfl⟩ : ∃ r, rem = r + 2 := ⟨rem - 2, by omega⟩
      rw [retryGo, ha]
      simp
  | succ n ih =>
    intro rem a s hlt hfail hsucc
    obtain ⟨r, rfl⟩ : ∃ r, rem = r + 2 := ⟨rem - 2, by omega⟩
    have ha : capture a = none := by simpa using hfail 0 (Nat.succ_pos n)
    rw [retryGo, ha]
    rw [ih (r + 1) (a + 1) (s + 1) (by omega)
      (fun i hi => by
        have h := hfail (i + 1) (by omega)
        rw [show a + 1 + i = a + (i + 1) by omega]
        exact h)
      (by
        rw [show a + 1 + n = a + (n + 1) by omega]
        exact hsucc)]
    simp only [RetryTrace.mk.injEq]
    exact ⟨by trivial, by omega, by omega⟩

theorem retryGo_fail {α : Type} (capture : ℕ → Option α) :
    ∀ (rem a s : ℕ), 1 ≤ rem →
      (∀ i, i < rem → capture (a + i) = none) →
      retryGo capture rem a s = ⟨none, a + rem, s + rem - 1⟩ := by
  intro rem
  induction rem using Nat.strong_induction_on with
  | _ rem ih =>
    intro a s h1 hfail
    have ha : capture a = none := by simpa using hfail 0 (by omega)
    rcases Nat.lt_or_ge rem 2 with h2 | h2
    · obtain rfl : rem = 1 := by omega
      rw [retryGo, ha]
      simp
    · obtain ⟨r, rfl⟩ : ∃ r, rem = r + 2 := ⟨rem - 2, by omega⟩
      rw [retryGo, ha]
      rw [ih (r + 1) (by omega) (a + 1) (s + 1) (by omega)
        (fun i hi => by
          have h := hfail (i + 1) (by omega)
          rw [show a + 1 + i = a + (i + 1) by omega]
          exact h)]
      simp only [RetryTrace.mk.injEq]
      exact ⟨by trivial, by omega, by omega⟩

/-- C4: the retry wrapper (default 3 attempts) returns the first successful
capture: a device failing attempts `1..k-1` and succeeding on attempt
`k ≤ max_retries` yields that frame after exactly `k` capture calls and `k-1`
inter-attempt delays; a device failing every attempt yields `none` (no
exception) after exactly `max_retries` capture calls, with the fixed
`RETRY_DELAY` = 0.05 s = 50 ms delay between consecutive attempts
(`max_retries - 1` delays in total). Attempts are numbered from 1; `capture i`
is the outcome of attempt `i + 1`. -/
theorem C4_capture_with_retry {α : Type} :
    (∀ (capture : ℕ → Option α) (max_retries k : ℕ) (frame : α),
        1 ≤ k → k ≤ max_retries →
        (∀ i, i < k - 1 → capture i = none) →
        capture (k - 1) = some frame →
        capture_with_retry capture max_retries = ⟨some frame, k, k - 1⟩)
    ∧ (∀ (capture : ℕ → Option α) (max_retries : ℕ),
        1 ≤ max_retries →
        (∀ i, i < max_retries → capture i = none) →
        capture_with_retry capture max_retries = ⟨none, max_retries, max_retries - 1⟩)
    ∧ RETRY_DELAY * 1000 = 50 := by
  refine ⟨?_, ?_, by norm_num [RETRY_DELAY]⟩
  · intro capture max_retries k frame hk1 hkmax hfail hsucc
    have h := retryGo_succ capture frame (k - 1) max_retries 0 0 (by omega)
      (fun i hi => by simpa using hfail i hi) (by simpa using hsucc)
    rw [capture_with_retry, h]
    simp only [RetryTrace.mk.injEq]
    exact ⟨by trivial, by omega, by omega⟩
  · intro capture max_retries hmax hfail
    have h := retryGo_fail capture max_retries 0 0 hmax
      (fun i hi => by simpa using hfail i hi)
    rw [capture_with_retry, h]
    simp only [RetryTrace.mk.injEq]
    exact ⟨by trivial, by omega, by omega⟩

/-- Witness for C4 over `α = ℕ`: a device failing attempt 1 and succeeding on
attempt 2 of 3 returns the frame with 2 attempts and 1 delay; a device failing
all 3 attempts returns `none` with 3 attempts and 2 delays. -/
theorem C4_capture_with_retry_witness :
    capture_with_retry (fun i => if i = 1 then some 42 else none) 3
        = ⟨some 42, 2, 1⟩
    ∧ capture_with_retry (fun _ => (none : Option ℕ)) 3 = ⟨none, 3, 2⟩ :=
  ⟨C4_capture_with_retry.1 (fun i => if i = 1 then some 42 else none) 3 2 42
      (by norm_num) (by norm_num)
      (fun i hi => by
        have h0 : i = 0 := by omega
        subst h0
        rfl)
      rfl,
   C4_capture_with_retry.2.1 (fun _ => none) 3 (by norm_num) (fun i _ => rfl)⟩

/-- C5: a cycle whose capture stage produced an empty mapping aborts before the
pipeline stage and the aggregator run, records exactly one cycle-level failure
in the metrics sink, produces no report, and propagates the error to the
caller. -/
theorem C5_empty_capture_aborts {F : Type} (cycle_id : ℕ)
    (process_single : String → F → Except String ProcResult) (elapsed : ℚ) :
    execute_cycle cycle_id ([] : List (String × F)) process_single elapsed
      = (.error "No frames captured from any camera",
         { pipeline_ran := false, aggregator_ran := false
           failures_recorded := 1, cycles_recorded := 0 }) := rfl

theorem key_nodup_eq {F : Type} (l : List (String × F))
    (hnodup : (l.map Prod.fst).Nodup) :
    ∀ a b c, (a, b) ∈ l → (a, c) ∈ l → b = c := by
  induction l with
  | nil =>
    intro a b c hb
    simp at hb
  | cons p t ih =>
    rw [List.map_cons, List.nodup_cons] at hnodup
    intro a b c hb hc
    rcases List.mem_cons.mp hb with hb1 | hb1
    · rcases List.mem_cons.mp hc with hc1 | hc1
      · have h := hb1.trans hc1.symm
        rw [Prod.mk.injEq] at h
        exact h.2
      · exfalso
        apply hnodup.1
        rw [← hb1]
        exact List.mem_map.mpr ⟨(a, c), hc1, rfl⟩
    · rcases List.mem_cons.mp hc with hc1 | hc1
      · exfalso
        apply hnodup.1
        rw [← hc1]
        exact List.mem_map.mpr ⟨(a, b), hb1, rfl⟩
      · exact ih hnodup.2 a b c hb1 hc1

/-- C7: the pipeline stage's output key set is a subset of the capture-stage key
set; every device whose pipeline run succeeds keeps its entry; and (for the
duplicate-free key sets dictionaries provide) a device whose pipeline run
raises is excluded — one device's failure neither aborts the stage (which
always returns a mapping) nor affects any other device's entry. -/
theorem C7_process_frames_isolation {F R : Type} (frames : List (String × F))
    (process_single : String → F → Except String R) :
    ((process_frames frames process_single).map Prod.fst ⊆ frames.map Prod.fst)
    ∧ (∀ camera_id f r, (camera_id, f) ∈ frames →
        process_single camera_id f = .ok r →
        (camera_id, r) ∈ process_frames frames process_single)
    ∧ ((frames.map Prod.fst).Nodup →
        ∀ camera_id f e, (camera_id, f) ∈ frames →
          process_single camera_id f = .error e →
          camera_id ∉ (process_frames frames process_single).map Prod.fst) := by
  refine ⟨?_, ?_, ?_⟩
  · intro x hx
    obtain ⟨y, hy, rfl⟩ := List.mem_map.mp hx
    obtain ⟨p, hp, hgp⟩ := List.mem_filterMap.mp hy
    cases hps : process_single p.1 p.2 with
    | ok r =>
      rw [hps] at hgp
      simp only [Option.some.injEq] at hgp
      rw [← hgp]
      exact List.mem_map.mpr ⟨p, hp, rfl⟩
    | error e =>
      rw [hps] at hgp
      simp at hgp
  · intro camera_id f r hmem hok
    refine List.mem_filterMap.mpr ⟨(camera_id, f), hmem, ?_⟩
    simp [hok]
  · intro hnodup camera_id f e hmem herr hx
    obtain ⟨y, hy, hyx⟩ := List.mem_map.mp hx
    obtain ⟨p, hp, hgp⟩ := List.mem_filterMap.mp hy
    cases hps : process_single p.1 p.2 with
    | ok r =>
      rw [hps] at hgp
      simp only [Option.some.injEq] at hgp
      have hkey : p.1 = camera_id := by
        rw [← hgp] at hyx
        exact hyx
      have hsame : p.2 = f := by
        apply key_nodup_eq frames hnodup camera_id p.2 f
        · rw [← hkey]
          exact hp
        · exact hmem
      rw [hkey, hsame] at hps
      rw [hps] at herr
      exact Except.noConfusion herr
    | error e2 =>
      rw [hps] at hgp
      simp at hgp

/-- Witness for C7 over `F = R = ℕ`: with two captured frames where processing
succeeds for CAM_01 and raises for CAM_02, CAM_01 keeps its entry and CAM_02 is
excluded from the result keys. -/
theorem C7_process_frames_isolation_witness :
    ("CAM_01", 7) ∈ process_frames [("CAM_01", (0 : ℕ)), ("CAM_02", 1)]
        (fun cid f => if cid = "CAM_01" then Except.ok (f + 7) else .error "boom")
    ∧ "CAM_02" ∉ (process_frames [("CAM_01", (0 : ℕ)), ("CAM_02", 1)]
        (fun cid f => if cid = "CAM_01" then Except.ok (f + 7) else .error "boom")).map
          Prod.fst :=
  ⟨(C7_process_frames_isolation [("CAM_01", 0), ("CAM_02", 1)]
      (fun cid f => if cid = "CAM_01" then Except.ok (f + 7) else .error "boom")).2.1
      "CAM_01" 0 7 (List.mem_cons_self _ _) rfl,
   (C7_process_frames_isolation [("CAM_01", 0), ("CAM_02", 1)]
      (fun cid f => if cid = "CAM_01" then Except.ok (f + 7) else .error "boom")).2.2
      (by simp) "CAM_02" 1 "boom"
      (List.mem_cons_of_mem _ (List.mem_cons_self _ _)) rfl⟩

/-- C8: every `record_failure` call runs under the collector's lock, so a
concurrent execution of the writes is some sequential order of the atomic
operations; in every such order, starting from any state, no count is lost:
the final `total_failures` is the initial value plus the number of
`record_failure` events among the writes. In particular, `P` concurrently
recorded cycle-failure events on a fresh collector end with
`total_failures = P`. -/
theorem C8_concurrent_failures_counted (s : MetricsState) (ops : List MetricsOp) :
    (runOps s ops).total_failures
        = s.total_failures + ops.countP (fun op => op.isFailure)
    ∧ ∀ P : ℕ,
        (runOps initMetrics (List.replicate P .failure)).total_failures = P := by
  have main : ∀ (ops2 : List MetricsOp) (s2 : MetricsState),
      (runOps s2 ops2).total_failures
        = s2.total_failures + ops2.countP (fun op => op.isFailure) := by
    intro ops2
    induction ops2 with
    | nil =>
      intro s2
      simp [runOps]
    | cons op t ih =>
      intro s2
      have hstep : runOps s2 (op :: t) = runOps (applyOp s2 op) t := rfl
      rw [hstep, ih, List.countP_cons]
      cases op with
      | cycle report => simp [applyOp, record_cycle, MetricsOp.isFailure]
      | cameraFailure camera_id =>
        simp [applyOp, record_camera_failure, MetricsOp.isFailure]
      | failure =>
        simp [applyOp, record_failure, MetricsOp.isFailure]
        omega
  refine ⟨main ops s, ?_⟩
  intro P
  rw [main (List.replicate P .failure) initMetrics]
  have hcount : (List.replicate P MetricsOp.failure).countP (fun op => op.isFailure) = P := by
    induction P with
    | zero => simp
    | succ n ih =>
      rw [List.replicate_succ, List.countP_cons, ih]
      rfl
  rw [hcount]
  simp [initMetrics]

theorem get_summary_empty (s : MetricsState) (h : s.decisions = []) :
    get_summary s = empty_summary := by
  rw [get_summary]
  simp [h]

theorem get_summary_nonempty (s : MetricsState) (h : s.decisions ≠ []) :
    get_summary s =
      { total_cycles := s.decisions.length
        successful_cycles := s.decisions.length
        failed_cycles := s.total_failures
        pass_count := s.decisions.count "PASS"
        fail_count := s.decisions.count "FAIL"
        pass_rate := if 0 < s.decisions.length then
            (s.decisions.count "PASS" : ℚ) / s.decisions.length * 100 else 0
        avg_cycle_time := if s.cycle_times ≠ [] then
            s.cycle_times.sum / s.cycle_times.length else 0
        min_cycle_time := if s.cycle_times ≠ [] then listMin s.cycle_times else 0
        max_cycle_time := if s.cycle_times ≠ [] then listMax s.cycle_times else 0
        avg_quality_score := if s.quality_scores ≠ [] then
            s.quality_scores.sum / s.quality_scores.length else 0
        total_defects := s.defect_counts.sum
        avg_defects_per_cycle := if s.defect_counts ≠ [] then
            (s.defect_counts.sum : ℚ) / s.defect_counts.length else 0
        camera_failures := s.camera_failures } := by
  have hlen : s.decisions.length ≠ 0 := by simpa using h
  simp only [get_summary]
  rw [if_neg hlen]

theorem count_pass_fail (l : List String) (h : ∀ d ∈ l, d = "PASS" ∨ d = "FAIL") :
    l.length = l.count "PASS" + l.count "FAIL" := by
  induction l with
  | nil => simp
  | cons a t ih =>
    have ht := ih (fun d hd => h d (List.mem_cons_of_mem _ hd))
    rcases h a (List.mem_cons_self _ _) with rfl | rfl <;>
      simp [List.count_cons, ht] <;> omega

/-- C10 (amended): every summary has `successful_cycles = total_cycles` and
`total_cycles = pass_count + fail_count`; cycles recorded only via
`record_failure` never enter `total_cycles`, `successful_cycles`, `pass_count`,
`fail_count` or the `pass_rate` denominator, so failed cycles do not lower the
reported pass rate; and `failed_cycles` equals the recorded failure count
WHEN at least one cycle was recorded — when `decisions` is empty,
`get_summary` takes the `_empty_summary` branch, which reports
`failed_cycles = 0` regardless of how many failures were recorded (contrary to
the claim's unconditional reading). -/
theorem C10_summary_invariants (s : MetricsState)
    (hdec : ∀ d ∈ s.decisions, d = "PASS" ∨ d = "FAIL") :
    (get_summary s).successful_cycles = (get_summary s).total_cycles
    ∧ (get_summary s).total_cycles
        = (get_summary s).pass_count + (get_summary s).fail_count
    ∧ (s.decisions ≠ [] → (get_summary s).failed_cycles = s.total_failures)
    ∧ (s.decisions = [] → (get_summary s).failed_cycles = 0)
    ∧ (get_summary (record_failure s)).total_cycles = (get_summary s).total_cycles
    ∧ (get_summary (record_failure s)).successful_cycles
        = (get_summary s).successful_cycles
    ∧ (get_summary (record_failure s)).pass_count = (get_summary s).pass_count
    ∧ (get_summary (record_failure s)).fail_count = (get_summary s).fail_count
    ∧ (get_summary (record_failure s)).pass_rate = (get_summary s).pass_rate := by
  by_cases h : s.decisions = []
  · have h1 : get_summary s = empty_summary := get_summary_empty s h
    have h2 : get_summary (record_failure s) = empty_summary :=
      get_summary_empty _ (by simpa [record_failure] using h)
    rw [h1, h2]
    simp [empty_summary, h]
  · have h1 := get_summary_nonempty s h
    have h2 := get_summary_nonempty (record_failure s)
      (by simpa [record_failure] using h)
    rw [h1, h2]
    exact ⟨rfl, count_pass_fail s.decisions hdec, fun _ => rfl,
      fun hh => absurd hh h, rfl, rfl, rfl, rfl, rfl⟩

/-- Witness for C10 at a state with one recorded PASS cycle and two recorded
failures. -/
theorem C10_summary_invariants_witness :
    (get_summary (⟨[10], ["PASS"], [0], [1], [], 2⟩ : MetricsState)).successful_cycles
        = (get_summary (⟨[10], ["PASS"], [0], [1], [], 2⟩ : MetricsState)).total_cycles
    ∧ (get_summary (⟨[10], ["PASS"], [0], [1], [], 2⟩ : MetricsState)).total_cycles
        = (get_summary (⟨[10], ["PASS"], [0], [1], [], 2⟩ : MetricsState)).pass_count
          + (get_summary (⟨[10], ["PASS"], [0], [1], [], 2⟩ : MetricsState)).fail_count
    ∧ ((⟨[10], ["PASS"], [0], [1], [], 2⟩ : MetricsState).decisions ≠ [] →
        (get_summary (⟨[10], ["PASS"], [0], [1], [], 2⟩ : MetricsState)).failed_cycles
          = (⟨[10], ["PASS"], [0], [1], [], 2⟩ : MetricsState).total_failures)
    ∧ ((⟨[10], ["PASS"], [0], [1], [], 2⟩ : MetricsState).decisions = [] →
        (get_summary (⟨[10], ["PASS"], [0], [1], [], 2⟩ : MetricsState)).failed_cycles = 0)
    ∧ (get_summary (record_failure (⟨[10], ["PASS"], [0], [1], [], 2⟩ : MetricsState))).total_cycles
        = (get_summary (⟨[10], ["PASS"], [0], [1], [], 2⟩ : MetricsState)).total_cycles
    ∧ (get_summary (record_failure (⟨[10], ["PASS"], [0], [1], [], 2⟩ : MetricsState))).successful_cycles
        = (get_summary (⟨[10], ["PASS"], [0], [1], [], 2⟩ : MetricsState)).successful_cycles
    ∧ (get_summary (record_failure (⟨[10], ["PASS"], [0], [1], [], 2⟩ : MetricsState))).pass_count
        = (get_summary (⟨[10], ["PASS"], [0], [1], [], 2⟩ : MetricsState)).pass_count
    ∧ (get_summary (record_failure (⟨[10], ["PASS"], [0], [1], [], 2⟩ : MetricsState))).fail_count
        = (get_summary (⟨[10], ["PASS"], [0], [1], [], 2⟩ : MetricsState)).fail_count
    ∧ (get_summary (record_failure (⟨[10], ["PASS"], [0], [1], [], 2⟩ : MetricsState))).pass_rate
        = (get_summary (⟨[10], ["PASS"], [0], [1], [], 2⟩ : MetricsState)).pass_rate :=
  C10_summary_invariants ⟨[10], ["PASS"], [0], [1], [], 2⟩
    (by
      intro d hd
      rw [List.mem_singleton] at hd
      exact Or.inl hd)

/-- Counterexample to C10 as stated: after a single `record_failure` on a fresh
collector (no recorded cycles), `total_failures` is 1 but the summary's
`failed_cycles` is 0 — the recorded failure does not increase `failed_cycles`
because the empty branch of `get_summary` hardcodes it to 0. -/
theorem C10_failed_cycles_counterexample :
    (record_failure initMetrics).total_failures = 1
    ∧ (get_summary (record_failure initMetrics)).failed_cycles = 0 :=
  ⟨rfl, rfl⟩

end Inspection
